import Mathlib

/-!
Verification of the `photo_lib` repository (src/lib.rs, src/photo_file.rs).

The whole library is a single in-memory record `PhotoFile` with three boolean
existence flags, dual-purpose get/set accessors, a derived `is_developed`
predicate, and a `clear` operation that removes one variant's file on disk via
`std::fs::remove_file`.

Shallow embedding conventions:
- `&mut self` methods become functions returning the updated record alongside
  their Rust return value.
- The filesystem is an explicit environment value `Fs` (existing paths plus
  paths the OS refuses to remove), and `removeFile` models
  `std::fs::remove_file` over it.  `clear` additionally returns the list of
  paths on which removal was attempted, so "no filesystem access" is the
  statement that this list is empty and the filesystem value is unchanged.
- `std::io::Error` is modelled by its `ErrorKind` together with a flag
  recording whether the error originated from an operating-system call
  (as errors of `std::fs::remove_file` do) or was built locally with
  `std::io::Error::from(kind)` (which carries no OS payload).
-/

namespace PhotoLib

/-- Error kinds of `std::io::ErrorKind` relevant to this library: not-found,
permission-denied, and a bucket for any other I/O failure. -/
inductive ErrorKind where
  | notFound
  | permissionDenied
  | otherError
deriving DecidableEq, Repr

/-- Model of `std::io::Error`: the error kind plus whether the error came from
the operating system (`std::fs` call) or was constructed locally from a bare
kind.  In Rust the two are distinguishable (`Error::raw_os_error()` is `Some`
only for OS errors). -/
structure IoError where
  kind : ErrorKind
  fromOs : Bool
deriving DecidableEq, Repr

/-- Model of `std::io::Error::from(kind)`: a local error of the given kind,
carrying no operating-system payload. -/
def IoError.fromKind (k : ErrorKind) : IoError := ⟨k, false⟩

/-- Environment model of the filesystem seen by `std::fs::remove_file`:
`files` are the paths that currently exist, `locked` are paths whose removal
the operating system refuses (permission denied). -/
structure Fs where
  files : List String
  locked : List String
deriving DecidableEq, Repr

/-- Environment model of `std::fs::remove_file path`: fails with an OS
permission-denied error on a locked path, removes an existing path, and fails
with the OS not-found error when the path does not exist. -/
def removeFile (fs : Fs) (path : String) : Except IoError Fs :=
  if path ∈ fs.locked then
    Except.error ⟨ErrorKind.permissionDenied, true⟩
  else if path ∈ fs.files then
    Except.ok ⟨fs.files.erase path, fs.locked⟩
  else
    Except.error ⟨ErrorKind.notFound, true⟩

/-- `HashType` from src/photo_file.rs: which of the three file variants have
been observed for one photo. -/
structure HashType where
  hash_raw : Bool
  hash_img : Bool
  hash_other : Bool
deriving DecidableEq, Repr

/-- `HashType::new`: all fields initialised to `false`. -/
def HashType.new : HashType := ⟨false, false, false⟩

/-- `PhotoFile` from src/photo_file.rs: base name (no extension), the flags of
the variants found, and the three extension strings. -/
structure PhotoFile where
  name : String
  types_found : HashType
  raw_ext : String
  img_ext : String
  other_ext : String
deriving DecidableEq, Repr

/-- `PhotoFile::new`: stores the name, applies each extension override when
given and the defaults `RAF` / `JPG` / `xmp` when the argument is `None`, and
initialises the flags via `HashType::new`. -/
def PhotoFile.new (name : String) (raw_ext img_ext other_ext : Option String) :
    PhotoFile :=
  let rext := match raw_ext with
    | some s => s
    | none => "RAF"
  let iext := match img_ext with
    | some s => s
    | none => "JPG"
  let oext := match other_ext with
    | some s => s
    | none => "xmp"
  ⟨name, HashType.new, rext, iext, oext⟩

/-- `PhotoFile::hash_raw(&mut self, raw_exists)`: optionally overwrites the raw
flag, then returns the record and the flag's current value. -/
def PhotoFile.hash_raw (pf : PhotoFile) (raw_exists : Option Bool) :
    PhotoFile × Bool :=
  let pf := match raw_exists with
    | some re => { pf with types_found := { pf.types_found with hash_raw := re } }
    | none => pf
  (pf, pf.types_found.hash_raw)

/-- `PhotoFile::hash_img(&mut self, img_exists)`: optionally overwrites the
developed-image flag, then returns the record and the flag's current value. -/
def PhotoFile.hash_img (pf : PhotoFile) (img_exists : Option Bool) :
    PhotoFile × Bool :=
  let pf := match img_exists with
    | some ie => { pf with types_found := { pf.types_found with hash_img := ie } }
    | none => pf
  (pf, pf.types_found.hash_img)

/-- `PhotoFile::hash_other(&mut self, other_exists)`: optionally overwrites the
sidecar flag, then returns the record and the flag's current value. -/
def PhotoFile.hash_other (pf : PhotoFile) (other_exists : Option Bool) :
    PhotoFile × Bool :=
  let pf := match other_exists with
    | some oe => { pf with types_found := { pf.types_found with hash_other := oe } }
    | none => pf
  (pf, pf.types_found.hash_other)

/-- `PhotoFile::is_developed(&self)`: `true` when both the raw and the
developed-image flags are set. Takes `&self` in the source, hence pure here. -/
def PhotoFile.is_developed (pf : PhotoFile) : Bool :=
  if pf.types_found.hash_raw && pf.types_found.hash_img then true else false

/-- The variant selector matched on by `PhotoFile::clear` (imported as
`PhotoType` in src/photo_file.rs; src/lib.rs declares the same three variants
under the name `FileType`). -/
inductive PhotoType where
  | Raw
  | Img
  | Other
deriving DecidableEq, Repr

/-- Everything `PhotoFile::clear` produces: the record after the call (the
source takes `&mut self`), its Rust return value `std::io::Result<u32>`, the
filesystem after the call, and the list of paths on which `remove_file` was
attempted, in order. -/
structure ClearOutcome where
  selfAfter : PhotoFile
  result : Except IoError Nat
  fsAfter : Fs
  attempted : List String
deriving Repr

/-- `PhotoFile::clear(&mut self, image_type)`: builds `filepath` by pushing
the variant's extension onto a clone of the name, returns a local
`NotFound` error when the variant's flag is unset, and otherwise calls
`remove_file(filepath)`, propagating its error with `?` or returning `Ok(0)`. -/
def PhotoFile.clear (pf : PhotoFile) (image_type : PhotoType) (fs : Fs) :
    ClearOutcome :=
  let filepath := pf.name
  let sel := match image_type with
    | PhotoType.Raw => (pf.raw_ext, pf.types_found.hash_raw)
    | PhotoType.Img => (pf.img_ext, pf.types_found.hash_img)
    | PhotoType.Other => (pf.other_ext, pf.types_found.hash_other)
  let filepath := filepath ++ sel.1
  if !sel.2 then
    ⟨pf, Except.error (IoError.fromKind ErrorKind.notFound), fs, []⟩
  else
    match removeFile fs filepath with
    | Except.error e => ⟨pf, Except.error e, fs, [filepath]⟩
    | Except.ok fs2 => ⟨pf, Except.ok 0, fs2, [filepath]⟩

/-- The in-memory existence flag `PhotoFile::clear` consults for a variant. -/
def variantFlag (pf : PhotoFile) (t : PhotoType) : Bool :=
  match t with
  | PhotoType.Raw => pf.types_found.hash_raw
  | PhotoType.Img => pf.types_found.hash_img
  | PhotoType.Other => pf.types_found.hash_other

/-- The extension string `PhotoFile::clear` appends for a variant. -/
def variantExt (pf : PhotoFile) (t : PhotoType) : String :=
  match t with
  | PhotoType.Raw => pf.raw_ext
  | PhotoType.Img => pf.img_ext
  | PhotoType.Other => pf.other_ext

/-- Helper: `clear` never mutates the record it is called on — the source body
only reads `self`. -/
theorem clear_selfAfter (pf : PhotoFile) (t : PhotoType) (fs : Fs) :
    (pf.clear t fs).selfAfter = pf := by
  cases t <;> simp only [PhotoFile.clear] <;> split <;>
    first
      | rfl
      | (split <;> rfl)

/-- C1: for every record and variant, when the in-memory existence flag for
that variant is `false`, `clear` returns the local `NotFound` error, leaves the
filesystem untouched and attempts no removal. -/
theorem clear_flag_false_notFound (pf : PhotoFile) (t : PhotoType) (fs : Fs)
    (h : variantFlag pf t = false) :
    pf.clear t fs =
      ⟨pf, Except.error (IoError.fromKind ErrorKind.notFound), fs, []⟩ := by
  cases t <;>
    simp only [variantFlag] at h <;>
    simp [PhotoFile.clear, h]

/-- Witness for C1 at a concrete freshly constructed record with a non-empty
filesystem: the guard error is returned, nothing is attempted. -/
theorem clear_flag_false_notFound_w :
    (PhotoFile.new "DSCF1022" none none none).clear PhotoType.Raw
        ⟨["DSCF1022RAF"], []⟩ =
      ⟨PhotoFile.new "DSCF1022" none none none,
       Except.error (IoError.fromKind ErrorKind.notFound),
       ⟨["DSCF1022RAF"], []⟩, []⟩ :=
  clear_flag_false_notFound _ _ _ rfl

/-- C2: for every record whose flag for a variant is `true`, after a
successful `clear` of that variant the record is unchanged — in particular the
existence flag is still `true`, not reset to `false`. -/
theorem clear_success_record_unchanged (pf : PhotoFile) (t : PhotoType)
    (fs : Fs) (hflag : variantFlag pf t = true)
    (_hok : ∃ v, (pf.clear t fs).result = Except.ok v) :
    (pf.clear t fs).selfAfter = pf ∧
      variantFlag (pf.clear t fs).selfAfter t = true := by
  refine ⟨clear_selfAfter pf t fs, ?_⟩
  rw [clear_selfAfter pf t fs]
  exact hflag

/-- Witness for C2: a record with the raw flag set, cleared successfully on a
filesystem that contains its raw file. -/
theorem clear_success_record_unchanged_w :
    (let pf := ((PhotoFile.new "DSCF1022" none none none).hash_raw
        (some true)).1
     (pf.clear PhotoType.Raw ⟨["DSCF1022RAF"], []⟩).selfAfter = pf ∧
       variantFlag
         ((pf.clear PhotoType.Raw ⟨["DSCF1022RAF"], []⟩).selfAfter)
         PhotoType.Raw = true) :=
  clear_success_record_unchanged _ _ _ rfl ⟨0, rfl⟩

/-- C3: `is_developed` is `true` exactly when both the raw and developed flags
are `true`, and the sidecar flag has no influence on it.  Being a `&self`
method, it is modelled (faithfully) as a pure function, so it has no effect on
the record. -/
theorem is_developed_iff (pf : PhotoFile) :
    (pf.is_developed = true ↔
      pf.types_found.hash_raw = true ∧ pf.types_found.hash_img = true) ∧
    ∀ b : Bool,
      (PhotoFile.is_developed
        { pf with types_found := { pf.types_found with hash_other := b } }) =
        pf.is_developed := by
  constructor
  · simp [PhotoFile.is_developed]
  · intro b
    simp [PhotoFile.is_developed]

/-- C4: each variant accessor called with `none` returns the record unchanged
together with the current flag; called with `some v` it overwrites exactly that
variant's flag with `v`, changes nothing else, and returns `v`. -/
theorem hash_accessors_get_set (pf : PhotoFile) (v : Bool) :
    pf.hash_raw none = (pf, pf.types_found.hash_raw) ∧
    pf.hash_img none = (pf, pf.types_found.hash_img) ∧
    pf.hash_other none = (pf, pf.types_found.hash_other) ∧
    pf.hash_raw (some v) =
      ({ pf with types_found := { pf.types_found with hash_raw := v } }, v) ∧
    pf.hash_img (some v) =
      ({ pf with types_found := { pf.types_found with hash_img := v } }, v) ∧
    pf.hash_other (some v) =
      ({ pf with types_found := { pf.types_found with hash_other := v } }, v) := by
  refine ⟨rfl, rfl, rfl, ?_, ?_, ?_⟩ <;>
    simp [PhotoFile.hash_raw, PhotoFile.hash_img, PhotoFile.hash_other]

/-- C5: `new` stores the base name as given (the empty string included),
initialises all three existence flags to `false`, and uses each supplied
extension override, falling back to the defaults `RAF` / `JPG` / `xmp` when
the corresponding argument is absent.  The constructor takes no filesystem
argument: it is pure, so it performs no filesystem access. -/
theorem new_fields (name : String) (r i o : Option String) :
    (PhotoFile.new name r i o).name = name ∧
    (PhotoFile.new name r i o).types_found.hash_raw = false ∧
    (PhotoFile.new name r i o).types_found.hash_img = false ∧
    (PhotoFile.new name r i o).types_found.hash_other = false ∧
    (PhotoFile.new name r i o).raw_ext = r.getD "RAF" ∧
    (PhotoFile.new name r i o).img_ext = i.getD "JPG" ∧
    (PhotoFile.new name r i o).other_ext = o.getD "xmp" := by
  cases r <;> cases i <;> cases o <;>
    simp [PhotoFile.new, HashType.new]

/-- Helper: with the variant's flag set, `clear` reduces to dispatching on the
outcome of `removeFile` at the concatenated path. -/
theorem clear_flag_true_eq (pf : PhotoFile) (t : PhotoType) (fs : Fs)
    (h : variantFlag pf t = true) :
    pf.clear t fs =
      (match removeFile fs (pf.name ++ variantExt pf t) with
        | Except.error e =>
            ⟨pf, Except.error e, fs, [pf.name ++ variantExt pf t]⟩
        | Except.ok fs2 =>
            ⟨pf, Except.ok 0, fs2, [pf.name ++ variantExt pf t]⟩) := by
  cases t <;>
    simp only [variantFlag] at h <;>
    simp [PhotoFile.clear, variantExt, h]

/-- Helper: every error `removeFile` produces is an operating-system error. -/
theorem removeFile_error_fromOs (fs : Fs) (path : String) (e : IoError)
    (h : removeFile fs path = Except.error e) : e.fromOs = true := by
  simp only [removeFile] at h
  split at h
  · cases h
    rfl
  · split at h
    · cases h
    · cases h
      rfl

/-- Helper: with the variant's flag set, `clear` attempts removal of exactly
the concatenated path. -/
theorem clear_attempted_of_flag (pf : PhotoFile) (t : PhotoType) (fs : Fs)
    (h : variantFlag pf t = true) :
    (pf.clear t fs).attempted = [pf.name ++ variantExt pf t] := by
  rw [clear_flag_true_eq pf t fs h]
  cases hrm : removeFile fs (pf.name ++ variantExt pf t) <;> simp [hrm]

/-- C6: when the variant's flag is `true`, `clear` attempts removal of exactly
one path, the concatenation of the base name and that variant's extension with
no separator in between. -/
theorem clear_attempts_exact_path (pf : PhotoFile) (t : PhotoType) (fs : Fs)
    (h : variantFlag pf t = true) :
    (pf.clear t fs).attempted = [pf.name ++ variantExt pf t] :=
  clear_attempted_of_flag pf t fs h

/-- Witness for C6: clearing the sidecar variant of a record with a custom
extension attempts exactly the bare concatenation of name and extension. -/
theorem clear_attempts_exact_path_w :
    ((((PhotoFile.new "IMG_10" none none (some ".xmp")).hash_other
        (some true)).1).clear PhotoType.Other ⟨[], []⟩).attempted =
      ["IMG_10" ++ ".xmp"] :=
  clear_attempts_exact_path _ _ _ rfl

/-- C7 counterexample: the success value of `clear` is the number `0` in the
numeric type `u32` (the source returns `std::io::Result<u32>` and `Ok(0)`),
not a unit: the result type admits distinct success payloads, which a unit
result could not. -/
theorem clear_success_not_unit :
    ((((PhotoFile.new "DSCF1022" none none none).hash_img (some true)).1).clear
        PhotoType.Img ⟨["DSCF1022JPG"], []⟩).result = Except.ok 0 ∧
      (Except.ok 0 : Except IoError Nat) ≠ Except.ok 1 := by
  refine ⟨rfl, ?_⟩
  simp

/-- C7 amended: `clear` returns `Result<u32, IoError>`; on success the carried
value is always the constant `0`, a marker with no semantic content. -/
theorem clear_success_value_zero (pf : PhotoFile) (t : PhotoType) (fs : Fs)
    (v : Nat) (h : (pf.clear t fs).result = Except.ok v) : v = 0 := by
  cases t <;>
    simp only [PhotoFile.clear] at h <;>
    split at h <;>
    first
      | simp at h
      | (split at h <;> simp_all)

/-- Witness for C7's amended theorem at the concrete successful clear used in
the counterexample. -/
theorem clear_success_value_zero_w :
    ((((PhotoFile.new "DSCF1022" none none none).hash_img (some true)).1).clear
        PhotoType.Img ⟨["DSCF1022JPG"], []⟩).result = Except.ok 0 ∧
      (0 : Nat) = 0 :=
  ⟨rfl,
    clear_success_value_zero
      (((PhotoFile.new "DSCF1022" none none none).hash_img (some true)).1)
      PhotoType.Img ⟨["DSCF1022JPG"], []⟩ 0 rfl⟩

/-- C8: when the flag is `true`, `clear` always attempts the removal; if the
file is absent (and not locked) the operating system's not-found error is
propagated, if the OS refuses the removal its permission error is propagated,
and any error returned in this situation is an OS-originated error, hence
distinguishable from the local guard error built with `Error::from`. -/
theorem clear_propagates_fs_error (pf : PhotoFile) (t : PhotoType) (fs : Fs)
    (hflag : variantFlag pf t = true) :
    (pf.clear t fs).attempted = [pf.name ++ variantExt pf t] ∧
    (pf.name ++ variantExt pf t ∉ fs.files →
      pf.name ++ variantExt pf t ∉ fs.locked →
      (pf.clear t fs).result = Except.error ⟨ErrorKind.notFound, true⟩) ∧
    (pf.name ++ variantExt pf t ∈ fs.locked →
      (pf.clear t fs).result =
        Except.error ⟨ErrorKind.permissionDenied, true⟩) ∧
    (∀ e, (pf.clear t fs).result = Except.error e →
      e ≠ IoError.fromKind ErrorKind.notFound) := by
  refine ⟨clear_attempted_of_flag pf t fs hflag, ?_, ?_, ?_⟩
  · intro habs hnl
    rw [clear_flag_true_eq pf t fs hflag]
    simp [removeFile, habs, hnl]
  · intro hl
    rw [clear_flag_true_eq pf t fs hflag]
    simp [removeFile, hl]
  · intro e he
    rw [clear_flag_true_eq pf t fs hflag] at he
    have hos : e.fromOs = true := by
      revert he
      cases hrm : removeFile fs (pf.name ++ variantExt pf t) with
      | error x =>
          intro he
          simp only at he
          cases he
          exact removeFile_error_fromOs fs (pf.name ++ variantExt pf t) _ hrm
      | ok fs2 =>
          intro he
          simp at he
    intro hcontra
    rw [hcontra] at hos
    simp [IoError.fromKind] at hos

/-- Witness for C8: clearing the raw variant with the flag set on an empty
filesystem propagates the OS not-found error, which differs from the guard
error. -/
theorem clear_propagates_fs_error_w :
    (let pf := ((PhotoFile.new "DSCF1022" none none none).hash_raw
        (some true)).1
     (pf.clear PhotoType.Raw ⟨[], []⟩).attempted =
        ["DSCF1022" ++ variantExt pf PhotoType.Raw] ∧
      ("DSCF1022" ++ variantExt pf PhotoType.Raw ∉ ([] : List String) →
        "DSCF1022" ++ variantExt pf PhotoType.Raw ∉ ([] : List String) →
        (pf.clear PhotoType.Raw ⟨[], []⟩).result =
          Except.error ⟨ErrorKind.notFound, true⟩) ∧
      ("DSCF1022" ++ variantExt pf PhotoType.Raw ∈ ([] : List String) →
        (pf.clear PhotoType.Raw ⟨[], []⟩).result =
          Except.error ⟨ErrorKind.permissionDenied, true⟩) ∧
      (∀ e, (pf.clear PhotoType.Raw ⟨[], []⟩).result = Except.error e →
        e ≠ IoError.fromKind ErrorKind.notFound)) :=
  clear_propagates_fs_error
    (((PhotoFile.new "DSCF1022" none none none).hash_raw (some true)).1)
    PhotoType.Raw ⟨[], []⟩ rfl

/-- The identifying fields of a record: base name and the three extensions. -/
def identityOf (pf : PhotoFile) : String × String × String × String :=
  (pf.name, pf.raw_ext, pf.img_ext, pf.other_ext)

/-- C9: no public operation ever modifies the base name or an extension: the
three accessors (with any argument) and `clear` (on any variant, any
filesystem, success or error alike) return a record with the same identifying
fields; `is_developed` takes `&self` and is pure, touching nothing. -/
theorem identity_fields_immutable (pf : PhotoFile) (b : Option Bool)
    (t : PhotoType) (fs : Fs) :
    identityOf (pf.hash_raw b).1 = identityOf pf ∧
    identityOf (pf.hash_img b).1 = identityOf pf ∧
    identityOf (pf.hash_other b).1 = identityOf pf ∧
    identityOf (pf.clear t fs).selfAfter = identityOf pf := by
  refine ⟨?_, ?_, ?_, ?_⟩
  · cases b <;> rfl
  · cases b <;> rfl
  · cases b <;> rfl
  · rw [clear_selfAfter]

/-- C10: an extension passed as `Some s` is stored exactly, for every variant;
in particular `Some ""` yields an empty stored extension, and clearing that
variant (with its flag set) targets the bare base name. -/
theorem some_extension_stored_exact (name s : String) (r i o : Option String)
    (fs : Fs) :
    (PhotoFile.new name (some s) i o).raw_ext = s ∧
    (PhotoFile.new name r (some s) o).img_ext = s ∧
    (PhotoFile.new name r i (some s)).other_ext = s ∧
    (PhotoFile.new name (some "") i o).raw_ext = "" ∧
    ((((PhotoFile.new name (some "") i o).hash_raw (some true)).1).clear
        PhotoType.Raw fs).attempted = [name] := by
  refine ⟨rfl, rfl, rfl, rfl, ?_⟩
  have h := clear_attempted_of_flag
    (((PhotoFile.new name (some "") i o).hash_raw (some true)).1)
    PhotoType.Raw fs rfl
  simpa [PhotoFile.new, PhotoFile.hash_raw, variantExt] using h

end PhotoLib
